import Mathlib

/-!
Verification of the A2A HTTP client transport layer (`HttpClient` in
`src/client/HttpClient` extending `A2AClient`): the JSON-RPC unary response
decoder `_handleJsonResponse`, the SSE streaming frame decoder
`_handleStreamingResponse`, the public streaming wrappers
(`sendTaskSubscribe` / `resubscribeTask`), agent-card caching (`agentCard`)
and capability discovery (`supports`).

The embedding models JavaScript values produced by `JSON.parse` with the
`Json` inductive, JavaScript exceptions with `JsErr` (an `Error` with a plain
message, or an `RpcError` carrying code/message/data), and `try`/`catch`
with `jsCatch` over `Except`.  `JSON.parse` itself is a parameter
(`JsonParse`): a deterministic function from the input text to either a
parsed value or a syntax-error message, which is all the decoders observe
of it.  Text handled by the streaming buffer machinery is modelled as
`List Char` (the decoder sits behind a `TextDecoderStream`, so chunk
boundaries are character-level).
-/

namespace A2A

/-- A JavaScript value as produced by `JSON.parse`: null, booleans, numbers
(integer-valued here; the claims only involve integer codes), strings,
arrays and objects. -/
inductive Json where
  | null : Json
  | bool (b : Bool) : Json
  | num (n : Int) : Json
  | str (s : String) : Json
  | arr (elems : List Json) : Json
  | obj (fields : List (String × Json)) : Json

/-- Field lookup in an object literal; later duplicate keys win, as with
`JSON.parse`. -/
def lookupField : List (String × Json) → String → Option Json
  | [], _ => none
  | (k, v) :: rest, key =>
    match lookupField rest key with
    | some w => some w
    | none => if k = key then some v else none

/-- JavaScript property access `j[key]`: `some` the field value on objects,
`none` (i.e. `undefined`) otherwise.  Arrays and primitives have no such
fields. -/
def getField : Json → String → Option Json
  | Json.obj fields, key => lookupField fields key
  | _, _ => none

/-- `typeof j === "object"`: true for objects, arrays and `null`. -/
def typeofObject : Json → Bool
  | Json.null => true
  | Json.obj _ => true
  | Json.arr _ => true
  | _ => false

/-- `j === null`. -/
def isJsNull : Json → Bool
  | Json.null => true
  | _ => false

/-- JavaScript truthiness of a value. -/
def truthy : Json → Bool
  | Json.null => false
  | Json.bool b => b
  | Json.num n => n != 0
  | Json.str s => s != ""
  | Json.arr _ => true
  | Json.obj _ => true

/-- Truthiness of a possibly-`undefined` value (`none` is `undefined`,
which is falsy). -/
def truthyOpt : Option Json → Bool
  | none => false
  | some j => truthy j

/-- `x ?? null`: `undefined` becomes `null`; `null` stays `null`. -/
def nullCoalesce : Option Json → Json
  | none => Json.null
  | some j => j

/-- `"key" in j`: property presence. -/
def hasField (j : Json) (key : String) : Bool :=
  (getField j key).isSome

mutual
/-- A thrown JavaScript exception: either a plain `Error` (including
`SyntaxError` from `JSON.parse`) with its message, or an
`RpcError(code, message, data)` as declared in `A2AClient.ts`.  Code and
message are the values passed to the constructor (`none` = `undefined`). -/
inductive JsErr where
  | plain (message : String) : JsErr
  | rpc (code : Option Json) (message : Option Json) (data : JsData) : JsErr

/-- The `data` argument of an `RpcError`: absent, a JSON value, or a caught
exception being wrapped. -/
inductive JsData where
  | undef : JsData
  | json (j : Json) : JsData
  | err (e : JsErr) : JsData
end

/-- `error instanceof Error ? error.message : String(error)` for the
exceptions this client wraps (always plain `Error`s on the wrap paths). -/
def JsErr.messageText : JsErr → String
  | JsErr.plain m => m
  | JsErr.rpc _ m _ =>
    match m with
    | some (Json.str s) => s
    | _ => ""

/-- `new RpcError(errorData.code, errorData.message, errorData.data)` built
from the `error` field of an envelope (`envl.error` is known truthy when
this runs). -/
def peerError (envl : Json) : JsErr :=
  let errorData := (getField envl "error").getD Json.null
  JsErr.rpc (getField errorData "code") (getField errorData "message")
    (match getField errorData "data" with
     | none => JsData.undef
     | some j => JsData.json j)

/-- `new RpcError(-32603, message)` with no data argument. -/
def internalRpcError (message : String) : JsErr :=
  JsErr.rpc (some (Json.num (-32603))) (some (Json.str message)) JsData.undef

/-- The outer catch of `_handleJsonResponse` wrapping a non-`RpcError`
exception: `new RpcError(-32603, "Failed to process response: " +
error.message, error)`. -/
def wrapError (caught : JsErr) : JsErr :=
  JsErr.rpc (some (Json.num (-32603)))
    (some (Json.str ("Failed to process response: " ++ caught.messageText)))
    (JsData.err caught)

/-- The HTTP response handed to `_handleJsonResponse`: status flag, numeric
status, status text and the body text. -/
structure WireResponse where
  ok : Bool
  status : Nat
  statusText : String
  body : List Char

/-- The message of the plain `Error` thrown on a non-ok response:
`HTTP error ${status}: ${statusText}` plus ` - ${body}` when the body text
is nonempty (truthy). -/
def httpErrorMessage (r : WireResponse) : String :=
  "HTTP error " ++ toString r.status ++ ": " ++ r.statusText ++
    (if r.body = [] then "" else " - " ++ String.mk r.body)

/-- `try { tryBlock } catch (e) { handler e }`. -/
def jsCatch {α : Type} (tryBlock : Except JsErr α)
    (handler : JsErr → Except JsErr α) : Except JsErr α :=
  match tryBlock with
  | Except.ok a => Except.ok a
  | Except.error e => handler e

/-- The behaviour of `JSON.parse` on an input text: the parsed value, or
the message of the `SyntaxError` it throws. -/
def JsonParse : Type := List Char → Except String Json

/-- The envelope-shape test of `_handleJsonResponse`:
`typeof jsonResponse === "object" && jsonResponse !== null &&
jsonResponse.jsonrpc === "2.0"` (the source negates this to reject). -/
def envelopeShapeOk (j : Json) : Bool :=
  typeofObject j && !(isJsNull j) &&
    (match getField j "jsonrpc" with
     | some (Json.str s) => s = "2.0"
     | _ => false)

/-- The envelope-shape test of `_handleStreamingResponse`:
`typeof parsedData === "object" && parsedData !== null &&
("jsonrpc" in parsedData && parsedData.jsonrpc === "2.0")`. -/
def streamShapeOk (j : Json) : Bool :=
  typeofObject j && !(isJsNull j) &&
    (hasField j "jsonrpc" &&
      (match getField j "jsonrpc" with
       | some (Json.str s) => s = "2.0"
       | _ => false))

/-- `_handleJsonResponse`: the unary JSON-RPC response decoder.  On a
non-ok response it reads the body, tries to parse it and throw the embedded
peer error — but that inner `try` has a bare `catch` ("Ignore parsing
error") which swallows the thrown `RpcError` too, so control always falls
through to `throw new Error("HTTP error ...")`, which the outer catch wraps
with code -32603.  On an ok response it parses the body, rejects a
non-envelope shape with -32603, rethrows a truthy `error` field verbatim as
an `RpcError`, and otherwise returns `result ?? null`.  The outer catch
rethrows `RpcError`s unchanged and wraps everything else. -/
def handleJsonResponse (parse : JsonParse) (r : WireResponse) :
    Except JsErr Json :=
  jsCatch
    (if !r.ok then
      jsCatch
        (match parse r.body with
         | Except.error syntaxMsg => Except.error (JsErr.plain syntaxMsg)
         | Except.ok parsedError =>
           if truthyOpt (getField parsedError "error") then
             Except.error (peerError parsedError)
           else
             Except.ok ())
        (fun _ => Except.ok ()) >>= fun _ =>
      Except.error (JsErr.plain (httpErrorMessage r))
    else
      match parse r.body with
      | Except.error syntaxMsg => Except.error (JsErr.plain syntaxMsg)
      | Except.ok jsonResponse =>
        if !(envelopeShapeOk jsonResponse) then
          Except.error (internalRpcError
            "Invalid JSON-RPC response structure received from server.")
        else if truthyOpt (getField jsonResponse "error") then
          Except.error (peerError jsonResponse)
        else
          Except.ok (nullCoalesce (getField jsonResponse "result")))
    (fun caught =>
      match caught with
      | JsErr.rpc c m d => Except.error (JsErr.rpc c m d)
      | JsErr.plain m => Except.error (wrapError (JsErr.plain m)))

/-- `buffer.replace(/\r/g, "")`: remove every carriage return. -/
def stripCR (s : List Char) : List Char :=
  s.filter (fun c => c != '\r')

/-- `text.split("\n\n")`: split on the blank-line SSE frame delimiter,
leftmost-first and non-overlapping, always returning at least one piece
(`"".split("\n\n")` is `[""]`). -/
def splitNN : List Char → List (List Char)
  | [] => [[]]
  | [c] => [[c]]
  | c :: d :: rest =>
    if c = '\n' ∧ d = '\n' then
      [] :: splitNN rest
    else
      match splitNN (d :: rest) with
      | [] => [[c]]
      | h :: t => (c :: h) :: t

/-- Whitespace removed by `String.prototype.trim` (the varieties relevant
to this protocol's text). -/
def isJsSpace (c : Char) : Bool :=
  c = ' ' || c = '\t' || c = '\n' || c = '\r' || c = '\x0b' || c = '\x0c'

/-- `s.trim()`. -/
def trimWS (s : List Char) : List Char :=
  ((s.dropWhile isJsSpace).reverse.dropWhile isJsSpace).reverse

/-- `message.startsWith("data: ")` combined with
`message.substring("data: ".length)`: the text after the six-character
marker when the frame begins with it, `none` otherwise. -/
def dataPayload : List Char → Option (List Char)
  | 'd' :: 'a' :: 't' :: 'a' :: ':' :: ' ' :: rest => some rest
  | _ => none

/-- The body of the frame-level `try` in `_handleStreamingResponse` for a
nonempty trimmed data line: parse it; skip (`continue`) a non-envelope
shape; throw an `RpcError` on a truthy `error` field; yield the `result`
when the field is present (`!== undefined`, even if `null`); skip a frame
with neither. -/
def processDataLine (parse : JsonParse) (dataLine : List Char) :
    Except JsErr (Option Json) :=
  match parse dataLine with
  | Except.error syntaxMsg => Except.error (JsErr.plain syntaxMsg)
  | Except.ok parsedData =>
    if !(streamShapeOk parsedData) then
      Except.ok none
    else if truthyOpt (getField parsedData "error") then
      Except.error (peerError parsedData)
    else
      match getField parsedData "result" with
      | some v => Except.ok (some v)
      | none => Except.ok none

/-- What one complete SSE frame contributes to the yielded sequence.
Frames not starting with `data: `, or with an empty trimmed payload, are
ignored.  The surrounding `catch (e)` ("Failed to parse SSE data line")
swallows every exception `processDataLine` throws — including the
`RpcError` built from an `error` frame — so no frame ever terminates the
stream. -/
def frameResult (parse : JsonParse) (message : List Char) : Option Json :=
  match dataPayload message with
  | none => none
  | some afterMarker =>
    let dataLine := trimWS afterMarker
    if dataLine = [] then none
    else
      match processDataLine parse dataLine with
      | Except.ok r => r
      | Except.error _ => none

/-- The read loop of `_handleStreamingResponse`: per chunk, append to the
buffer, strip carriage returns, split on blank lines, keep the final
(possibly partial) piece as the new buffer (`lines.pop() || ""`) and yield
what each completed frame produces.  A partial frame left in the buffer at
stream end is discarded with a warning. -/
def runBuf (parse : JsonParse) : List Char → List (List Char) → List Json
  | _, [] => []
  | buffer, chunk :: rest =>
    let parts := splitNN (stripCR (buffer ++ chunk))
    parts.dropLast.filterMap (frameResult parse) ++
      runBuf parse (parts.getLastD []) rest

/-- `_handleStreamingResponse` on an established (ok) stream delivering the
given text chunks: the sequence of yielded results. -/
def handleStreamingResponse (parse : JsonParse)
    (chunks : List (List Char)) : List Json :=
  runBuf parse [] chunks

/-- The wrapper generators of `sendTaskSubscribe` / `resubscribeTask`:
`for await (const item of iterable) if (item !== undefined && item !== null)
yield item` — inner items are parsed JSON values, so only `null` is
filtered. -/
def filterNullish (items : List Json) : List Json :=
  items.filter (fun item => !(isJsNull item))

/-- The event sequence produced by the public `sendTaskSubscribe` on a
stream delivering the given chunks. -/
def sendTaskSubscribe (parse : JsonParse) (chunks : List (List Char)) :
    List Json :=
  filterNullish (handleStreamingResponse parse chunks)

/-- The event sequence produced by the public `resubscribeTask` on a
stream delivering the given chunks. -/
def resubscribeTask (parse : JsonParse) (chunks : List (List Char)) :
    List Json :=
  filterNullish (handleStreamingResponse parse chunks)

/-- The mutable state of an `HttpClient` instance relevant to the agent
card: `cachedAgentCard` of declared type `AgentCard | null`, initially
`null`; after a successful fetch it holds whatever value the response body
decoded to (the `as AgentCard` cast validates nothing). -/
structure ClientState where
  cachedAgentCard : Json

/-- A freshly constructed client (`cachedAgentCard = null`). -/
def ClientState.init : ClientState := ⟨Json.null⟩

/-- The outcome the network produces for one GET of `<base>/agent-card`:
an ok response whose body parses to `card`; a non-ok status; a thrown
network error; or a body that fails JSON decoding. -/
inductive FetchOutcome where
  | success (card : Json)
  | httpError (status : Nat) (statusText : String)
  | networkFail (message : String)
  | jsonFail (message : String)

/-- The message of the `Error` thrown on a non-ok agent-card response. -/
def cardHttpMessage (baseUrl : String) (status : Nat) (statusText : String) :
    String :=
  "HTTP error " ++ toString status ++ " fetching agent card from " ++
    baseUrl ++ "/agent-card" ++ ": " ++ statusText

/-- The catch of `agentCard` wrapping any failure:
`new RpcError(-32603, "Could not retrieve agent card: " + error.message,
error)`. -/
def wrapCardError (caught : JsErr) : JsErr :=
  JsErr.rpc (some (Json.num (-32603)))
    (some (Json.str ("Could not retrieve agent card: " ++ caught.messageText)))
    (JsData.err caught)

/-- `agentCard()`: the cache hit is the truthiness test
`if (this.cachedAgentCard)` — a cached falsy value (in particular the
initial `null`, but also a fetched body that decoded to `null`) fails it
and triggers a fetch.  On success the decoded body is assigned to the
cache unconditionally and returned; on any failure the catch wraps the
error with code -32603.  The third component counts network fetches
performed by this call. -/
def agentCard (baseUrl : String) (net : FetchOutcome) (st : ClientState) :
    Except JsErr Json × ClientState × Nat :=
  if truthy st.cachedAgentCard then
    (Except.ok st.cachedAgentCard, st, 0)
  else
    match net with
    | FetchOutcome.success card =>
      (Except.ok card, ⟨card⟩, 1)
    | FetchOutcome.httpError status statusText =>
      (Except.error (wrapCardError
        (JsErr.plain (cardHttpMessage baseUrl status statusText))), st, 1)
    | FetchOutcome.networkFail m =>
      (Except.error (wrapCardError (JsErr.plain m)), st, 1)
    | FetchOutcome.jsonFail m =>
      (Except.error (wrapCardError (JsErr.plain m)), st, 1)

/-- `card.capabilities?.streaming`-style optional-chained access: `none`
(undefined) when `capabilities` is absent or `null`, otherwise the flag
field. -/
def capabilityField (card : Json) (name : String) : Option Json :=
  match getField card "capabilities" with
  | none => none
  | some caps => if isJsNull caps then none else getField caps name

/-- `supports(capability)`: resolve the agent card (possibly fetching) and
return the double-negated capability flag; the catch converts any failure
into `false`.  Never throws. -/
def supports (baseUrl : String) (net : FetchOutcome) (st : ClientState)
    (capability : String) : Bool × ClientState :=
  match agentCard baseUrl net st with
  | (Except.ok card, st2, _) =>
    (if capability = "streaming" then
       truthyOpt (capabilityField card "streaming")
     else if capability = "pushNotifications" then
       truthyOpt (capabilityField card "pushNotifications")
     else false, st2)
  | (Except.error _, st2, _) => (false, st2)

/-! ### Well-formed SSE frames and frame-level predicates -/

/-- A frame as the server would emit it between blank-line delimiters:
carriage-return-free, containing no blank-line delimiter of its own, and
not ending in a bare newline (which would merge into the delimiter). -/
def wellFrame (f : List Char) : Prop :=
  stripCR f = f ∧ splitNN f = [f] ∧ f.getLast? ≠ some '\n'

/-- The stream text formed by emitting each frame followed by the
blank-line delimiter. -/
def sseJoin (frames : List (List Char)) : List Char :=
  frames.foldr (fun f acc => f ++ '\n' :: '\n' :: acc) []

/-- A frame carrying the result `v`: it begins with `data: `, its trimmed
payload is nonempty and parses to an envelope of valid shape whose `error`
field is absent or falsy and whose `result` field is present with value
`v`. -/
def resultFrame (parse : JsonParse) (f : List Char) (v : Json) : Prop :=
  ∃ payload env,
    dataPayload f = some payload ∧
    trimWS payload ≠ [] ∧
    parse (trimWS payload) = Except.ok env ∧
    streamShapeOk env = true ∧
    truthyOpt (getField env "error") = false ∧
    getField env "result" = some v

/-- A frame failing envelope-shape validation: it begins with `data: ` and
has a nonempty trimmed payload, but the payload either fails to parse
(`JSON.parse` throws) or parses to a value without the object shape and
`"jsonrpc": "2.0"` tag. -/
def malformedFrame (parse : JsonParse) (f : List Char) : Prop :=
  ∃ payload,
    dataPayload f = some payload ∧
    trimWS payload ≠ [] ∧
    ((∃ msg, parse (trimWS payload) = Except.error msg) ∨
     (∃ env, parse (trimWS payload) = Except.ok env ∧ streamShapeOk env = false))

/-! ### Concrete test fixtures

Envelope texts paired with the values `JSON.parse` produces for them, and
a parse function behaving as `JSON.parse` does on these inputs. -/

/-- The parsed envelope `{"jsonrpc":"2.0","id":1,"result":{"state":"working"}}`. -/
def resultEnv : Json :=
  Json.obj [("jsonrpc", Json.str "2.0"), ("id", Json.num 1),
    ("result", Json.obj [("state", Json.str "working")])]

/-- The result payload carried by `resultEnv`. -/
def resultVal : Json := Json.obj [("state", Json.str "working")]

/-- The parsed envelope `{"jsonrpc":"2.0","id":1,"error":{"code":5,"message":"boom"}}`. -/
def errorEnv : Json :=
  Json.obj [("jsonrpc", Json.str "2.0"), ("id", Json.num 1),
    ("error", Json.obj [("code", Json.num 5), ("message", Json.str "boom")])]

/-- The parsed envelope `{"jsonrpc":"2.0","id":1}`: neither `result` nor
`error`. -/
def emptyEnv : Json :=
  Json.obj [("jsonrpc", Json.str "2.0"), ("id", Json.num 1)]

/-- The parsed envelope `{"jsonrpc":"2.0","id":1,"result":null}`. -/
def nullResultEnv : Json :=
  Json.obj [("jsonrpc", Json.str "2.0"), ("id", Json.num 1),
    ("result", Json.null)]

def resultText : List Char :=
  "\x7b\"jsonrpc\":\"2.0\",\"id\":1,\"result\":\x7b\"state\":\"working\"\x7d\x7d".toList

def errorText : List Char :=
  "\x7b\"jsonrpc\":\"2.0\",\"id\":1,\"error\":\x7b\"code\":5,\"message\":\"boom\"\x7d\x7d".toList

def emptyText : List Char :=
  "\x7b\"jsonrpc\":\"2.0\",\"id\":1\x7d".toList

def nullResultText : List Char :=
  "\x7b\"jsonrpc\":\"2.0\",\"id\":1,\"result\":null\x7d".toList

/-- `JSON.parse` restricted to the fixture texts; anything else raises a
syntax error, as `JSON.parse` does on the non-JSON payloads used below. -/
def testParse : JsonParse := fun s =>
  if s = resultText then Except.ok resultEnv
  else if s = errorText then Except.ok errorEnv
  else if s = emptyText then Except.ok emptyEnv
  else if s = nullResultText then Except.ok nullResultEnv
  else Except.error "Unexpected token"

/-- A stream chunk holding two frames: an `error` frame followed by a
`result` frame. -/
def c1Chunk : List Char :=
  "data: ".toList ++ errorText ++ ['\n', '\n'] ++
    "data: ".toList ++ resultText ++ ['\n', '\n']

/-- A non-success HTTP response whose body is an envelope carrying a peer
error. -/
def c3Response : WireResponse :=
  ⟨false, 500, "Internal Server Error", errorText⟩

/-- A frame whose `data: ` line is its second line, not its first. -/
def c5Frame : List Char :=
  "retry: 100\ndata: ".toList ++ resultText

/-- A frame whose payload is not JSON. -/
def badFrame : List Char := "data: nonsense".toList

/-- A well-formed result frame. -/
def goodFrame : List Char := "data: ".toList ++ resultText

/-- A well-formed frame carrying `"result": null`. -/
def nullFrame : List Char := "data: ".toList ++ nullResultText

/-- An agent card advertising streaming support. -/
def card0 : Json :=
  Json.obj [("capabilities", Json.obj [("streaming", Json.bool true)])]

/-! ### Properties of the blank-line splitter -/

theorem splitNN_ne_nil : ∀ s : List Char, splitNN s ≠ []
  | [] => by simp [splitNN]
  | [c] => by simp [splitNN]
  | c :: d :: rest => by
    rw [splitNN]
    split
    · simp
    · split <;> simp

theorem eq_of_splitNN_single : ∀ (s x : List Char), splitNN s = [x] → x = s
  | [], x, h => by
    simp only [splitNN, List.cons.injEq, and_true] at h
    exact h.symm
  | [c], x, h => by
    simp only [splitNN, List.cons.injEq, and_true] at h
    exact h.symm
  | c :: d :: rest, x, h => by
    rw [splitNN] at h
    split at h
    · simp only [List.cons.injEq] at h
      exact absurd h.2 (splitNN_ne_nil rest)
    · split at h
      · next heq => exact absurd heq (splitNN_ne_nil _)
      · next h' t' heq =>
        simp only [List.cons.injEq] at h
        obtain ⟨h1, h2⟩ := h
        subst h2
        have hd : h' = d :: rest := eq_of_splitNN_single _ _ heq
        subst hd
        exact h1.symm

theorem splitNN_append : ∀ (s : List Char) (ps : List (List Char)) (r u : List Char),
    splitNN s = ps ++ [r] → splitNN (s ++ u) = ps ++ splitNN (r ++ u)
  | [], ps, r, u, h => by
    simp only [splitNN] at h
    cases ps with
    | nil =>
      simp only [List.nil_append, List.cons.injEq, and_true] at h
      subst h
      simp
    | cons p ps' =>
      simp only [List.cons_append, List.cons.injEq] at h
      exact absurd h.2.symm (List.append_ne_nil_of_right_ne_nil ps' (by simp))
  | [c], ps, r, u, h => by
    simp only [splitNN] at h
    cases ps with
    | nil =>
      simp only [List.nil_append, List.cons.injEq, and_true] at h
      subst h
      simp
    | cons p ps' =>
      simp only [List.cons_append, List.cons.injEq] at h
      exact absurd h.2.symm (List.append_ne_nil_of_right_ne_nil ps' (by simp))
  | c :: d :: rest, ps, r, u, h => by
    by_cases hc : c = '\n' ∧ d = '\n'
    · obtain ⟨hc1, hc2⟩ := hc
      subst hc1; subst hc2
      rw [splitNN, if_pos ⟨rfl, rfl⟩] at h
      cases ps with
      | nil =>
        simp only [List.nil_append, List.cons.injEq] at h
        exact absurd h.2 (splitNN_ne_nil rest)
      | cons p ps' =>
        simp only [List.cons_append, List.cons.injEq] at h
        obtain ⟨hp, hrest⟩ := h
        have ih := splitNN_append rest ps' r u hrest
        show splitNN ('\n' :: '\n' :: (rest ++ u)) = _
        rw [splitNN, if_pos ⟨rfl, rfl⟩, ih, ← hp]
        simp
    · rw [splitNN, if_neg hc] at h
      cases hsp : splitNN (d :: rest) with
      | nil => exact absurd hsp (splitNN_ne_nil _)
      | cons h' t' =>
        rw [hsp] at h
        cases ps with
        | nil =>
          simp only [List.nil_append, List.cons.injEq] at h
          obtain ⟨h1, h2⟩ := h
          subst h2
          have hd : h' = d :: rest := eq_of_splitNN_single _ _ hsp
          subst hd
          subst h1
          simp
        | cons p ps' =>
          simp only [List.cons_append, List.cons.injEq] at h
          obtain ⟨hp, ht⟩ := h
          have ih := splitNN_append (d :: rest) (h' :: ps') r u (by rw [hsp, ht]; simp)
          simp only [List.cons_append] at ih
          show splitNN (c :: d :: (rest ++ u)) = _
          rw [splitNN, if_neg hc, ih, ← hp]
          simp

theorem dropLast_append_getLastD :
    ∀ {α : Type} (l : List α) (d : α), l ≠ [] → l.dropLast ++ [l.getLastD d] = l
  | _, [], _, h => absurd rfl h
  | _, [a], d, _ => rfl
  | _, a :: b :: l, d, _ => by
    simpa using congrArg (a :: ·) (dropLast_append_getLastD (b :: l) a (by simp))

theorem splitNN_last_single (s : List Char) (ps : List (List Char)) (r : List Char)
    (h : splitNN s = ps ++ [r]) : splitNN r = [r] := by
  have h2 := splitNN_append s ps r [] h
  simp only [List.append_nil] at h2
  rw [h] at h2
  exact (List.append_cancel_left h2).symm

theorem sublist_of_mem_splitNN : ∀ (s p : List Char), p ∈ splitNN s → p.Sublist s
  | [], p, hp => by
    simp only [splitNN, List.mem_singleton] at hp
    simp [hp]
  | [c], p, hp => by
    simp only [splitNN, List.mem_singleton] at hp
    simp [hp]
  | c :: d :: rest, p, hp => by
    rw [splitNN] at hp
    split at hp
    · rcases List.mem_cons.mp hp with h | h
      · subst h; exact List.nil_sublist _
      · exact (sublist_of_mem_splitNN rest p h).trans
          ((List.sublist_cons_self d rest).trans (List.sublist_cons_self c (d :: rest)))
    · cases hsp : splitNN (d :: rest) with
      | nil => exact absurd hsp (splitNN_ne_nil _)
      | cons h' t' =>
        rw [hsp] at hp
        rcases List.mem_cons.mp hp with h | h
        · subst h
          have hs : h'.Sublist (d :: rest) :=
            sublist_of_mem_splitNN (d :: rest) h' (by rw [hsp]; exact List.mem_cons_self _ _)
          exact hs.cons₂ c
        · have hs : p.Sublist (d :: rest) :=
            sublist_of_mem_splitNN (d :: rest) p (by rw [hsp]; exact List.mem_cons_of_mem _ h)
          exact hs.cons c

theorem stripCR_append (x y : List Char) :
    stripCR (x ++ y) = stripCR x ++ stripCR y :=
  List.filter_append x y

theorem stripCR_idem (s : List Char) : stripCR (stripCR s) = stripCR s :=
  List.filter_eq_self.mpr (fun _ ha => (List.mem_filter.mp ha).2)

theorem stripCR_of_sublist {p s : List Char} (hsub : p.Sublist s)
    (hs : stripCR s = s) : stripCR p = p :=
  List.filter_eq_self.mpr
    (fun a ha => List.filter_eq_self.mp hs a (hsub.subset ha))

theorem getLastD_mem : ∀ {α : Type} (l : List α) (d : α), l ≠ [] → l.getLastD d ∈ l
  | _, [], _, h => absurd rfl h
  | _, [a], d, _ => by simp [List.getLastD]
  | _, a :: b :: l, d, _ => by
    have h := getLastD_mem (b :: l) a (by simp)
    simp only [List.getLastD_cons] at h ⊢
    exact List.mem_cons_of_mem a h

/-- Processing a single chunk: strip, split, emit every completed frame. -/
theorem runBuf_single (parse : JsonParse) (buf t : List Char)
    (hstrip : stripCR buf = buf) :
    runBuf parse buf [t] =
      (splitNN (buf ++ stripCR t)).dropLast.filterMap (frameResult parse) := by
  simp only [runBuf, stripCR_append, hstrip, List.append_nil]

/-- The read loop is insensitive to chunk boundaries: feeding the chunks one
by one produces the same yields as feeding their concatenation at once,
provided the starting buffer is carriage-return-free and delimiter-free. -/
theorem runBuf_flatten (parse : JsonParse) :
    ∀ (chunks : List (List Char)) (buf : List Char),
      stripCR buf = buf → splitNN buf = [buf] →
      runBuf parse buf chunks = runBuf parse buf [chunks.flatten]
  | [], buf, hstrip, hsingle => by
    rw [List.flatten_nil, runBuf_single parse buf [] hstrip]
    show ([] : List Json) = _
    rw [show stripCR ([] : List Char) = [] from rfl, List.append_nil, hsingle]
    rfl
  | c :: cs, buf, hstrip, hsingle => by
    have hne : splitNN (buf ++ stripCR c) ≠ [] := splitNN_ne_nil _
    have hdec : (splitNN (buf ++ stripCR c)).dropLast ++
        [(splitNN (buf ++ stripCR c)).getLastD []] = splitNN (buf ++ stripCR c) :=
      dropLast_append_getLastD _ [] hne
    have hrsub : ((splitNN (buf ++ stripCR c)).getLastD []).Sublist (buf ++ stripCR c) :=
      sublist_of_mem_splitNN _ _ (getLastD_mem _ [] hne)
    have hTstrip : stripCR (buf ++ stripCR c) = buf ++ stripCR c := by
      rw [stripCR_append, hstrip, stripCR_idem]
    have hrstrip : stripCR ((splitNN (buf ++ stripCR c)).getLastD []) =
        (splitNN (buf ++ stripCR c)).getLastD [] :=
      stripCR_of_sublist hrsub hTstrip
    have hrsingle : splitNN ((splitNN (buf ++ stripCR c)).getLastD []) =
        [(splitNN (buf ++ stripCR c)).getLastD []] :=
      splitNN_last_single (buf ++ stripCR c) _ _ hdec.symm
    have ih := runBuf_flatten parse cs ((splitNN (buf ++ stripCR c)).getLastD [])
      hrstrip hrsingle
    have hsplit2 : splitNN (buf ++ stripCR c ++ stripCR cs.flatten) =
        (splitNN (buf ++ stripCR c)).dropLast ++
          splitNN ((splitNN (buf ++ stripCR c)).getLastD [] ++ stripCR cs.flatten) :=
      splitNN_append _ _ _ _ hdec.symm
    calc runBuf parse buf (c :: cs)
        = (splitNN (stripCR (buf ++ c))).dropLast.filterMap (frameResult parse) ++
            runBuf parse ((splitNN (stripCR (buf ++ c))).getLastD []) cs := by
          simp only [runBuf]
      _ = (splitNN (buf ++ stripCR c)).dropLast.filterMap (frameResult parse) ++
            runBuf parse ((splitNN (buf ++ stripCR c)).getLastD [])
              [cs.flatten] := by
          rw [stripCR_append, hstrip, ih]
      _ = (splitNN (buf ++ stripCR c)).dropLast.filterMap (frameResult parse) ++
            (splitNN ((splitNN (buf ++ stripCR c)).getLastD [] ++
              stripCR cs.flatten)).dropLast.filterMap (frameResult parse) := by
          rw [runBuf_single parse _ _ hrstrip]
      _ = runBuf parse buf [(c :: cs).flatten] := by
          rw [runBuf_single parse buf _ hstrip, List.flatten_cons, stripCR_append,
            ← List.append_assoc, hsplit2, List.dropLast_append,
            if_neg (by simp [List.isEmpty_iff, splitNN_ne_nil]),
            List.filterMap_append]

/-! ### Reassembly of well-formed SSE frames -/

theorem splitNN_frame : ∀ (f u : List Char), splitNN f = [f] →
    f.getLast? ≠ some '\n' →
    splitNN (f ++ '\n' :: '\n' :: u) = f :: splitNN u
  | [], u, _, _ => by
    show splitNN ('\n' :: '\n' :: u) = [] :: splitNN u
    rw [splitNN, if_pos ⟨rfl, rfl⟩]
  | [c], u, _, hlast => by
    have hc : ¬(c = '\n' ∧ '\n' = '\n') := by
      intro h
      exact hlast (by simp [h.1])
    show splitNN (c :: '\n' :: '\n' :: u) = [c] :: splitNN u
    rw [splitNN, if_neg hc,
      show splitNN ('\n' :: '\n' :: u) = [] :: splitNN u from by
        rw [splitNN, if_pos ⟨rfl, rfl⟩]]
  | c :: d :: rest, u, hsingle, hlast => by
    by_cases hc : c = '\n' ∧ d = '\n'
    · obtain ⟨h1, h2⟩ := hc
      subst h1; subst h2
      rw [splitNN, if_pos ⟨rfl, rfl⟩] at hsingle
      simp only [List.cons.injEq] at hsingle
      exact absurd hsingle.2 (splitNN_ne_nil rest)
    · rw [splitNN, if_neg hc] at hsingle
      cases hsp : splitNN (d :: rest) with
      | nil => exact absurd hsp (splitNN_ne_nil _)
      | cons h' t' =>
        rw [hsp] at hsingle
        simp only [List.cons.injEq] at hsingle
        obtain ⟨⟨_, hh⟩, ht⟩ := hsingle
        subst ht
        rw [hh] at hsp
        have ihlast : (d :: rest).getLast? ≠ some '\n' := by
          simpa [List.getLast?_cons_cons] using hlast
        have ih := splitNN_frame (d :: rest) u hsp ihlast
        simp only [List.cons_append] at ih
        show splitNN (c :: d :: (rest ++ '\n' :: '\n' :: u)) = _
        rw [splitNN, if_neg hc, ih]

theorem stripCR_sseJoin : ∀ (frames : List (List Char)),
    (∀ f ∈ frames, stripCR f = f) →
    stripCR (sseJoin frames) = sseJoin frames
  | [], _ => rfl
  | f :: fs, h => by
    show stripCR (f ++ '\n' :: '\n' :: sseJoin fs) = f ++ '\n' :: '\n' :: sseJoin fs
    rw [stripCR_append, h f (List.mem_cons_self _ _),
      show stripCR ('\n' :: '\n' :: sseJoin fs) =
        '\n' :: '\n' :: stripCR (sseJoin fs) from by simp [stripCR],
      stripCR_sseJoin fs (fun g hg => h g (List.mem_cons_of_mem _ hg))]

theorem splitNN_sseJoin : ∀ (frames : List (List Char)),
    (∀ f ∈ frames, wellFrame f) →
    splitNN (sseJoin frames) = frames ++ [[]]
  | [], _ => rfl
  | f :: fs, h => by
    obtain ⟨_, hsingle, hlast⟩ := h f (List.mem_cons_self _ _)
    have ih := splitNN_sseJoin fs (fun g hg => h g (List.mem_cons_of_mem _ hg))
    show splitNN (f ++ '\n' :: '\n' :: sseJoin fs) = _
    rw [splitNN_frame f _ hsingle hlast, ih]
    simp

/-- On a stream delivering exactly the given well-formed frames, the
decoder processes each frame in order and yields what `frameResult`
produces for it. -/
theorem streamFrames (parse : JsonParse) (frames : List (List Char))
    (h : ∀ f ∈ frames, wellFrame f) :
    handleStreamingResponse parse [sseJoin frames] =
      frames.filterMap (frameResult parse) := by
  rw [show handleStreamingResponse parse [sseJoin frames] =
      runBuf parse [] [sseJoin frames] from rfl,
    runBuf_single parse [] _ rfl, List.nil_append,
    stripCR_sseJoin frames (fun f hf => (h f hf).1),
    splitNN_sseJoin frames h, List.dropLast_concat]

/-! ### Frame-level behaviour -/

theorem frameResult_of_resultFrame {parse : JsonParse} {f : List Char}
    {v : Json} (h : resultFrame parse f v) : frameResult parse f = some v := by
  obtain ⟨payload, env, h1, h2, h3, h4, h5, h6⟩ := h
  simp [frameResult, h1, h2, processDataLine, h3, h4, h5, h6]

theorem frameResult_of_malformedFrame {parse : JsonParse} {f : List Char}
    (h : malformedFrame parse f) : frameResult parse f = none := by
  obtain ⟨payload, h1, h2, h3⟩ := h
  rcases h3 with ⟨msg, hp⟩ | ⟨env, hp, hshape⟩
  · simp [frameResult, h1, h2, processDataLine, hp]
  · simp [frameResult, h1, h2, processDataLine, hp, hshape]

theorem filterMap_frameResult_of_forall₂ {parse : JsonParse}
    {A : List (List Char)} {vs : List Json}
    (h : List.Forall₂ (resultFrame parse) A vs) :
    A.filterMap (frameResult parse) = vs := by
  induction h with
  | nil => rfl
  | cons hfv _ ih =>
    simp [List.filterMap_cons, frameResult_of_resultFrame hfv, ih]

theorem not_null_mem_filterNullish (items : List Json) :
    Json.null ∉ filterNullish items := by
  intro h
  have h2 := (List.mem_filter.mp h).2
  simp [isJsNull] at h2

/-! ### Claim theorems -/

/-- C4: for every character sequence and every way of splitting it into
successive chunks (including splits falling inside the blank-line frame
delimiter, and around carriage returns), the streaming decoder yields the
identical sequence of results as when the same text arrives as a single
chunk. -/
theorem streaming_chunk_invariant (parse : JsonParse)
    (chunks : List (List Char)) :
    handleStreamingResponse parse chunks =
      handleStreamingResponse parse [chunks.flatten] :=
  runBuf_flatten parse chunks [] rfl rfl

/-- C2 is false on the code: a successful response whose body is the valid
envelope `{"jsonrpc":"2.0","id":1}` — both `result` and `error` absent —
makes `_handleJsonResponse` return `null` (`result ?? null`), not raise a
-32603 `RpcError`. -/
theorem unary_both_absent_returns_null :
    handleJsonResponse testParse ⟨true, 200, "OK", emptyText⟩ =
      Except.ok Json.null := by
  rfl

/-- C2 (amended): decoding a successful response whose body is a valid
protocol-tagged envelope with both `result` and `error` absent returns
`null` (the absent `result` coalesced to `null`) rather than raising. -/
theorem unary_both_absent_spec (parse : JsonParse) (r : WireResponse)
    (env : Json) (hok : r.ok = true) (hparse : parse r.body = Except.ok env)
    (hshape : envelopeShapeOk env = true)
    (herr : getField env "error" = none)
    (hres : getField env "result" = none) :
    handleJsonResponse parse r = Except.ok Json.null := by
  simp [handleJsonResponse, jsCatch, hok, hparse, hshape, herr, hres,
    truthyOpt, nullCoalesce]

/-- Witness for the amended C2 at a concrete response. -/
theorem unary_both_absent_spec_witness :
    handleJsonResponse testParse ⟨true, 201, "Created", emptyText⟩ =
      Except.ok Json.null :=
  unary_both_absent_spec testParse ⟨true, 201, "Created", emptyText⟩
    emptyEnv rfl rfl rfl rfl rfl

/-- C7: decoding a successful response whose body is a valid
protocol-tagged envelope carrying an `error` object raises an `RpcError`
whose code, message and data are exactly the peer-supplied field values —
in particular the peer's code, not the locally reserved -32603. -/
theorem unary_peer_error_verbatim (parse : JsonParse) (r : WireResponse)
    (env : Json) (efields : List (String × Json)) (hok : r.ok = true)
    (hparse : parse r.body = Except.ok env)
    (hshape : envelopeShapeOk env = true)
    (herr : getField env "error" = some (Json.obj efields)) :
    handleJsonResponse parse r =
      Except.error (JsErr.rpc (lookupField efields "code")
        (lookupField efields "message")
        (match lookupField efields "data" with
         | none => JsData.undef
         | some j => JsData.json j)) := by
  have htr : truthyOpt (getField env "error") = true := by rw [herr]; rfl
  have hpe : peerError env = JsErr.rpc (lookupField efields "code")
      (lookupField efields "message")
      (match lookupField efields "data" with
       | none => JsData.undef
       | some j => JsData.json j) := by
    simp only [peerError, herr]
    rfl
  simp [handleJsonResponse, jsCatch, hok, hparse, hshape, htr, hpe]

/-- Witness for C7 at a concrete response carrying error code 5 /
message "boom": the raised error carries exactly those. -/
theorem unary_peer_error_verbatim_witness :
    handleJsonResponse testParse ⟨true, 200, "OK", errorText⟩ =
      Except.error (JsErr.rpc (some (Json.num 5)) (some (Json.str "boom"))
        JsData.undef) :=
  unary_peer_error_verbatim testParse ⟨true, 200, "OK", errorText⟩
    errorEnv [("code", Json.num 5), ("message", Json.str "boom")]
    rfl rfl rfl rfl

/-- C1 is false on the code (the claim matches the spec and the code's own
intent, but the implementation slips): on a stream whose first frame
carries an `error` and whose second carries a result, the `RpcError` thrown
for the error frame is swallowed by the surrounding frame-level
`catch (e)` ("Failed to parse SSE data line"), so the decoder raises
nothing, skips the error frame, and still yields the result of the frame
after it — instead of yielding 0 results and raising. -/
theorem stream_error_frame_swallowed :
    handleStreamingResponse testParse [c1Chunk] = [resultVal] ∧
    testParse errorText = Except.ok errorEnv ∧
    truthyOpt (getField errorEnv "error") = true := by
  exact ⟨rfl, rfl, rfl⟩

/-- C3 is false on the code (again a slip contradicting the code's own
intent): for a non-success response whose body carries a peer error
(code 5, "boom"), the `RpcError` built from that error is thrown inside
the inner `try` whose bare `catch` ("Ignore parsing error") swallows it;
control falls through to `throw new Error("HTTP error ...")`, which the
outer catch wraps — so the decoder raises code -32603 with the transport
message, never the peer's code 5. -/
theorem unary_nonok_peer_error_swallowed :
    handleJsonResponse testParse c3Response =
      Except.error (JsErr.rpc (some (Json.num (-32603)))
        (some (Json.str ("Failed to process response: " ++
          httpErrorMessage c3Response)))
        (JsData.err (JsErr.plain (httpErrorMessage c3Response)))) ∧
    testParse c3Response.body = Except.ok errorEnv ∧
    getField errorEnv "error" =
      some (Json.obj [("code", Json.num 5), ("message", Json.str "boom")]) := by
  exact ⟨rfl, rfl, rfl⟩

/-- C5 is false on the code: a frame whose `data: ` line is not its first
line (here `retry: 100\ndata: {...}`) is ignored entirely —
`message.startsWith("data: ")` fails, so the payload, though it parses to
a valid result envelope, is never located, parsed or yielded. -/
theorem stream_interior_data_line_ignored :
    handleStreamingResponse testParse [c5Frame ++ ['\n', '\n']] = [] ∧
    testParse resultText = Except.ok resultEnv ∧
    streamShapeOk resultEnv = true ∧
    getField resultEnv "result" = some resultVal := by
  exact ⟨rfl, rfl, rfl, rfl⟩

/-- C5 (amended): a complete frame whose FIRST line begins with `data: `
has the text after the marker trimmed and parsed as an envelope, and when
that envelope is a valid result envelope the frame is processed and its
result yielded. -/
theorem stream_leading_data_line_processed (parse : JsonParse)
    (f : List Char) (v : Json) (hwf : wellFrame f)
    (hres : resultFrame parse f v) :
    handleStreamingResponse parse [f ++ ['\n', '\n']] = [v] := by
  have h := streamFrames parse [f]
    (fun g hg => (List.mem_singleton.mp hg) ▸ hwf)
  rw [show sseJoin [f] = f ++ ['\n', '\n'] from rfl] at h
  rw [h, List.filterMap_cons, frameResult_of_resultFrame hres]
  rfl

/-- Witness for the amended C5 at a concrete result frame. -/
theorem stream_leading_data_line_processed_witness :
    handleStreamingResponse testParse [goodFrame ++ ['\n', '\n']] =
      [resultVal] :=
  stream_leading_data_line_processed testParse goodFrame resultVal
    ⟨rfl, by decide, by decide⟩
    ⟨resultText, resultEnv, rfl, by decide, rfl, rfl, rfl, rfl⟩

/-- C6: in a stream of N frames in which exactly one fails envelope-shape
validation (unparsable payload or missing/incorrect protocol tag) and the
other N−1 carry results, the decoder yields exactly the N−1 results in
order; the malformed frame is skipped and — the decoder being a total
function into the yielded list on such input — no error is raised. -/
theorem stream_malformed_frame_skipped (parse : JsonParse)
    (A B : List (List Char)) (b : List Char) (vsA vsB : List Json)
    (hwf : ∀ f ∈ A ++ b :: B, wellFrame f)
    (hA : List.Forall₂ (resultFrame parse) A vsA)
    (hB : List.Forall₂ (resultFrame parse) B vsB)
    (hb : malformedFrame parse b) :
    handleStreamingResponse parse [sseJoin (A ++ b :: B)] = vsA ++ vsB ∧
    (vsA ++ vsB).length = (A ++ b :: B).length - 1 := by
  constructor
  · rw [streamFrames parse _ hwf]
    simp [List.filterMap_append, List.filterMap_cons,
      frameResult_of_malformedFrame hb,
      filterMap_frameResult_of_forall₂ hA,
      filterMap_frameResult_of_forall₂ hB]
  · have h1 := hA.length_eq
    have h2 := hB.length_eq
    simp only [List.length_append, List.length_cons]
    omega

/-- Witness for C6: three frames, the middle one malformed, yield the two
results of the outer frames. -/
theorem stream_malformed_frame_skipped_witness :
    handleStreamingResponse testParse
        [sseJoin ([goodFrame] ++ badFrame :: [goodFrame])] =
      [resultVal] ++ [resultVal] ∧
    ([resultVal] ++ [resultVal]).length =
      (([goodFrame] ++ badFrame :: [goodFrame]).length) - 1 :=
  stream_malformed_frame_skipped testParse [goodFrame] [goodFrame] badFrame
    [resultVal] [resultVal]
    (by
      intro f hf
      fin_cases hf <;> exact ⟨rfl, by decide, by decide⟩)
    (List.Forall₂.cons
      ⟨resultText, resultEnv, rfl, by decide, rfl, rfl, rfl, rfl⟩
      List.Forall₂.nil)
    (List.Forall₂.cons
      ⟨resultText, resultEnv, rfl, by decide, rfl, rfl, rfl, rfl⟩
      List.Forall₂.nil)
    ⟨"nonsense".toList, rfl, by decide, Or.inl ⟨"Unexpected token", rfl⟩⟩

/-- C10: the public streaming wrappers never yield `null`: a valid frame
carrying `"result": null` is yielded by the inner frame decoder but
filtered out by the wrapper generators of `sendTaskSubscribe` and
`resubscribeTask`, and on no chunk sequence does either wrapper emit
`null`. -/
theorem stream_wrappers_never_yield_null (parse : JsonParse)
    (f : List Char) (chunks : List (List Char)) (hwf : wellFrame f)
    (hres : resultFrame parse f Json.null) :
    handleStreamingResponse parse [f ++ ['\n', '\n']] = [Json.null] ∧
    sendTaskSubscribe parse [f ++ ['\n', '\n']] = [] ∧
    resubscribeTask parse [f ++ ['\n', '\n']] = [] ∧
    Json.null ∉ sendTaskSubscribe parse chunks ∧
    Json.null ∉ resubscribeTask parse chunks := by
  have h := streamFrames parse [f]
    (fun g hg => (List.mem_singleton.mp hg) ▸ hwf)
  rw [show sseJoin [f] = f ++ ['\n', '\n'] from rfl] at h
  have h1 : handleStreamingResponse parse [f ++ ['\n', '\n']] = [Json.null] := by
    rw [h, List.filterMap_cons, frameResult_of_resultFrame hres]
    rfl
  refine ⟨h1, ?_, ?_, not_null_mem_filterNullish _, not_null_mem_filterNullish _⟩
  · rw [sendTaskSubscribe, h1]
    rfl
  · rw [resubscribeTask, h1]
    rfl

/-- Witness for C10 at a concrete `"result": null` frame. -/
theorem stream_wrappers_never_yield_null_witness :
    handleStreamingResponse testParse [nullFrame ++ ['\n', '\n']] =
      [Json.null] ∧
    sendTaskSubscribe testParse [nullFrame ++ ['\n', '\n']] = [] ∧
    resubscribeTask testParse [nullFrame ++ ['\n', '\n']] = [] ∧
    Json.null ∉ sendTaskSubscribe testParse [nullFrame ++ ['\n', '\n']] ∧
    Json.null ∉ resubscribeTask testParse [nullFrame ++ ['\n', '\n']] :=
  stream_wrappers_never_yield_null testParse nullFrame
    [nullFrame ++ ['\n', '\n']]
    ⟨rfl, by decide, by decide⟩
    ⟨nullResultText, nullResultEnv, rfl, by decide, rfl, rfl, rfl, rfl⟩

/-- C8 is false on the code at one degenerate but genuinely successful
input: a first `agentCard()` call whose response body decodes to `null`
succeeds (resolves with `null`, one fetch) and assigns `null` to the
cache, but the cache-hit test is the truthiness check
`if (this.cachedAgentCard)`, which `null` fails — so the subsequent call
performs another fetch instead of none, and two sequential calls perform
two fetches, not one. -/
theorem agent_card_null_refetch :
    agentCard "http://agent" (FetchOutcome.success Json.null)
      ClientState.init = (Except.ok Json.null, ⟨Json.null⟩, 1) ∧
    agentCard "http://agent" (FetchOutcome.success Json.null)
      ⟨Json.null⟩ = (Except.ok Json.null, ⟨Json.null⟩, 1) := by
  exact ⟨rfl, rfl⟩

/-- C8 (amended): if the first `agentCard()` call on a fresh client
succeeds with a truthy card — which every real object-shaped `AgentCard`
is — it performed exactly one fetch and the card is cached; any subsequent
call, whatever the network would now do, performs zero fetches and returns
the identical cached card with the state unchanged (so every later call
also returns it).  Only a falsy decoded body (e.g. JSON `null`) escapes
the truthiness cache check and is fetched again. -/
theorem agent_card_cached (baseUrl : String) (net net2 : FetchOutcome)
    (card : Json) (st1 : ClientState) (n : Nat)
    (hfirst : agentCard baseUrl net ClientState.init =
      (Except.ok card, st1, n))
    (htruthy : truthy card = true) :
    n = 1 ∧ st1 = ⟨card⟩ ∧
    agentCard baseUrl net2 st1 = (Except.ok card, st1, 0) := by
  cases net with
  | success c =>
    simp only [agentCard, ClientState.init, truthy, if_false, Bool.false_eq_true,
      ite_false, Prod.mk.injEq, Except.ok.injEq] at hfirst
    obtain ⟨h1, h2, h3⟩ := hfirst
    subst h1
    subst h2
    refine ⟨h3.symm, rfl, ?_⟩
    simp [agentCard, htruthy]
  | httpError s t =>
    simp [agentCard, ClientState.init, truthy] at hfirst
  | networkFail m =>
    simp [agentCard, ClientState.init, truthy] at hfirst
  | jsonFail m =>
    simp [agentCard, ClientState.init, truthy] at hfirst

/-- Witness for the amended C8: after a successful first fetch of the
truthy `card0`, a second call against a now-failing network still returns
the cached card with zero fetches. -/
theorem agent_card_cached_witness :
    (1 : Nat) = 1 ∧ (⟨card0⟩ : ClientState) = ⟨card0⟩ ∧
    agentCard "http://agent" (FetchOutcome.networkFail "down")
      ⟨card0⟩ = (Except.ok card0, ⟨card0⟩, 0) :=
  agent_card_cached "http://agent" (FetchOutcome.success card0)
    (FetchOutcome.networkFail "down") card0 ⟨card0⟩ 1 rfl rfl

/-- C9: `supports` is Bool-valued (never raises, by construction): when
agent-card retrieval fails it returns `false`, and when retrieval succeeds
it returns the boolean coercion (`!!`) of the corresponding capability
flag of the card (`false` for capabilities outside the two known ones). -/
theorem supports_false_on_failure (baseUrl : String) (net : FetchOutcome)
    (st : ClientState) (capability : String) :
    (∀ e st2 n, agentCard baseUrl net st = (Except.error e, st2, n) →
      supports baseUrl net st capability = (false, st2)) ∧
    (∀ card st2 n, agentCard baseUrl net st = (Except.ok card, st2, n) →
      supports baseUrl net st capability =
        ((if capability = "streaming" then
            truthyOpt (capabilityField card "streaming")
          else if capability = "pushNotifications" then
            truthyOpt (capabilityField card "pushNotifications")
          else false), st2)) := by
  constructor
  · intro e st2 n h
    simp [supports, h]
  · intro card st2 n h
    simp [supports, h]

/-- Witness for C9: a failing fetch gives `false`; a successful fetch of a
card advertising streaming gives `true`. -/
theorem supports_false_on_failure_witness :
    supports "http://agent" (FetchOutcome.networkFail "down")
      ClientState.init "streaming" = (false, ClientState.init) ∧
    supports "http://agent" (FetchOutcome.success card0)
      ClientState.init "streaming" = (true, ⟨card0⟩) := by
  constructor
  · exact (supports_false_on_failure "http://agent"
      (FetchOutcome.networkFail "down") ClientState.init "streaming").1
      (wrapCardError (JsErr.plain "down")) ClientState.init 1 rfl
  · have h := (supports_false_on_failure "http://agent"
      (FetchOutcome.success card0) ClientState.init "streaming").2
      card0 ⟨card0⟩ 1 rfl
    simpa using h

end A2A
